import Mathlib

/-!
Shallow embedding of the pharrrohealthscribe workflow orchestrator
(`src/App.tsx` together with the type declarations of `src/types`).

The React component keeps a single `AgentState` value and mutates it through
`setState`; every handler and every branch of the `runWorkflow` effect is
translated here as a pure state transformer.  The external collaborators
(`getPatientData`, `synthesizeClinicalData`, `generateDraftSummary`) and the
wall clock are bundled into an `Env` record, since the source treats them as
opaque request/response collaborators.
-/

namespace HealthScribe

/-- `Demographics` from `src/types`. -/
structure Demographics where
  name : String
  dob : String
  nhs_number : String
deriving DecidableEq, Repr

/-- `LabResult` from `src/types`. -/
structure LabResult where
  test : String
  value : String
  status : String
deriving DecidableEq, Repr

/-- `MedicationChange` from `src/types`. -/
structure MedicationChange where
  medication : String
  dose : String
  frequency : String
  status : String
deriving DecidableEq, Repr

/-- `Patient` from `src/types`. -/
structure Patient where
  id : String
  demographics : Demographics
  admission_reason : String
  clinical_notes : String
  lab_results : List LabResult
  medication_changes : List MedicationChange
deriving DecidableEq, Repr

/-- `AuditLogStatus` from `src/types`. -/
inductive AuditLogStatus where
  | pending
  | in_progress
  | completed
  | error
  | human_input
deriving DecidableEq, Repr

/-- `AuditLogEntry` from `src/types`. -/
structure AuditLogEntry where
  step : String
  status : AuditLogStatus
  details : String
  timestamp : String
deriving DecidableEq, Repr

/-- `AgentStatus` from `src/types`. -/
inductive AgentStatus where
  | idle
  | running
  | awaiting_approval
  | editing
  | finished
  | error
deriving DecidableEq, Repr

/-- `AgentState` from `src/types`; `null` becomes `Option`. -/
structure AgentState where
  patientId : Option String
  patientData : Option Patient
  synthesizedNotes : String
  draftSummary : String
  finalSummary : String
  auditLog : List AuditLogEntry
  status : AgentStatus
  error : Option String
  editRequest : String
deriving DecidableEq, Repr

/-- `INITIAL_STATE` from `src/App.tsx`. -/
def INITIAL_STATE : AgentState where
  patientId := none
  patientData := none
  synthesizedNotes := ""
  draftSummary := ""
  finalSummary := ""
  auditLog := []
  status := .idle
  error := none
  editRequest := ""

/-- `ALL_WORKFLOW_STEPS` from `src/App.tsx`. -/
def ALL_WORKFLOW_STEPS : List String :=
  [ "Start Workflow"
  , "Retrieve Patient Data"
  , "Synthesize Clinical Notes"
  , "Generate Draft Summary"
  , "Human Review"
  , "Finalize Summary"
  , "Workflow Complete" ]

/-- JavaScript `details || log.details`: an absent or empty new `details`
keeps the previous one. -/
def jsOr (d : Option String) (old : String) : String :=
  match d with
  | none => old
  | some x => if x = "" then old else x

/-- The per-entry function applied by `updateAuditLogStatus`'s `map`:
`log.step === stepName ? { ...log, status, details: details || log.details } : log`. -/
def updEntry (stepName : String) (status : AuditLogStatus) (details : Option String)
    (log : AuditLogEntry) : AuditLogEntry :=
  if log.step = stepName then
    { log with status := status, details := jsOr details log.details }
  else log

/-- The audit-log part of `updateAuditLogStatus`: a `map` over the whole log. -/
def updateLog (stepName : String) (status : AuditLogStatus) (details : Option String)
    (l : List AuditLogEntry) : List AuditLogEntry :=
  l.map (updEntry stepName status details)

/-- `addAuditLog` from `src/App.tsx`: appends one entry; the timestamp comes
from the wall clock, passed explicitly here. -/
def addAuditLog (step details : String) (status : AuditLogStatus) (timestamp : String)
    (s : AgentState) : AgentState :=
  { s with auditLog := s.auditLog ++ [⟨step, status, details, timestamp⟩] }

/-- `updateAuditLogStatus` from `src/App.tsx`. -/
def updateAuditLogStatus (stepName : String) (status : AuditLogStatus)
    (details : Option String) (s : AgentState) : AgentState :=
  { s with auditLog := updateLog stepName status details s.auditLog }

/-- `handlePatientSelect` from `src/App.tsx`. -/
def handlePatientSelect (id : String) (_s : AgentState) : AgentState :=
  { INITIAL_STATE with patientId := some id }

/-- `handleReset` from `src/App.tsx`. -/
def handleReset (_s : AgentState) : AgentState :=
  INITIAL_STATE

/-- JavaScript truthiness of `state.patientId : string | null`:
`null` and `""` are falsy. -/
def truthyId : Option String → Bool
  | none => false
  | some x => x ≠ ""

/-- `handleGenerate` from `src/App.tsx`: `if (!state.patientId) return;`,
otherwise restart from `INITIAL_STATE` keeping `patientId` and set
`status = running`. -/
def handleGenerate (s : AgentState) : AgentState :=
  if truthyId s.patientId then
    { INITIAL_STATE with patientId := s.patientId, status := .running }
  else s

/-- `handleApprove` from `src/App.tsx`. -/
def handleApprove (s : AgentState) : AgentState :=
  { updateAuditLogStatus "Human Review" .completed
      (some "Clinician approved the draft summary.") s with
    status := .running }

/-- The details string built by `handleRequestEdits`. -/
def editLogDetails (editRequest : String) : String :=
  "Clinician requested edits: \"" ++ editRequest ++ "\""

/-- `handleRequestEdits` from `src/App.tsx`: marks every `"Human Review"`
entry completed with the edit note, sets `status = editing` and stores the
edit text. -/
def handleRequestEdits (editRequest : String) (s : AgentState) : AgentState :=
  { s with
    auditLog := s.auditLog.map (fun log =>
      if log.step = "Human Review" then
        { log with status := .completed, details := editLogDetails editRequest }
      else log)
    status := .editing
    editRequest := editRequest }

/-- The external collaborators of the orchestrator plus the wall clock:
the patient record gateway, the two Gemini calls (each may fail with a
message), and the timestamp used for entries appended during one pass. -/
structure Env where
  getPatientData : String → Option Patient
  synthesizeClinicalData : Patient → Except String String
  generateDraftSummary : String → Option Patient → String → Except String String
  time : String

/-- Precondition of step 1 (`src/App.tsx` line 94):
`state.status === 'running' && state.auditLog.length === 0 && state.patientId`. -/
def cond1 (s : AgentState) : Bool :=
  decide (s.status = AgentStatus.running) && s.auditLog.isEmpty && truthyId s.patientId

/-- Precondition of step 2 (`src/App.tsx` line 115):
`state.status === 'running' && state.patientData && !state.synthesizedNotes`. -/
def cond2 (s : AgentState) : Bool :=
  decide (s.status = AgentStatus.running) && s.patientData.isSome
    && decide (s.synthesizedNotes = "")

/-- Precondition of step 3 (`src/App.tsx` line 129):
`(state.status === 'running' && state.synthesizedNotes && !state.draftSummary) || state.status === 'editing'`. -/
def cond3 (s : AgentState) : Bool :=
  (decide (s.status = AgentStatus.running) && decide (s.synthesizedNotes ≠ "")
    && decide (s.draftSummary = ""))
  || decide (s.status = AgentStatus.editing)

/-- Precondition of step 4 (`src/App.tsx` line 154):
`state.status === 'running' && state.draftSummary && !state.finalSummary`. -/
def cond4 (s : AgentState) : Bool :=
  decide (s.status = AgentStatus.running) && decide (s.draftSummary ≠ "")
    && decide (s.finalSummary = "")

/-- State of step 1 at its first suspension point: after
`addAuditLog('Start Workflow', ..., 'in_progress')`. -/
def step1Await1 (env : Env) (s : AgentState) : AgentState :=
  addAuditLog "Start Workflow"
    ("Initiating summary generation for patient: " ++ s.patientId.getD "")
    .in_progress env.time s

/-- State of step 1 at its second suspension point: after additionally
`addAuditLog('Retrieve Patient Data', ..., 'in_progress')`. -/
def step1Await2 (env : Env) (s : AgentState) : AgentState :=
  addAuditLog "Retrieve Patient Data" "Fetching patient record from database."
    .in_progress env.time (step1Await1 env s)

/-- Step 1 of `runWorkflow`: start the workflow and retrieve the patient
record; on a miss mark the retrieval entry `error` and fail the run. -/
def runStep1 (env : Env) (s : AgentState) : AgentState :=
  let pid := s.patientId.getD ""
  let s2 := step1Await2 env s
  match env.getPatientData pid with
  | some data =>
      let s3 := updateAuditLogStatus "Start Workflow" .completed none s2
      let s4 := updateAuditLogStatus "Retrieve Patient Data" .completed
        (some ("Successfully fetched data for " ++ data.demographics.name ++ ".")) s3
      { s4 with patientData := some data }
  | none =>
      let errorMsg := "Patient ID " ++ pid ++ " not found."
      let s3 := updateAuditLogStatus "Retrieve Patient Data" .error (some errorMsg) s2
      { s3 with status := .error, error := some errorMsg }

/-- State of step 2 at its suspension point: after
`addAuditLog('Synthesize Clinical Notes', ..., 'in_progress')`. -/
def step2Await (env : Env) (s : AgentState) : AgentState :=
  addAuditLog "Synthesize Clinical Notes" "Using Gemini to synthesize patient data."
    .in_progress env.time s

/-- Step 2 of `runWorkflow`: synthesize clinical notes for `pd`, the patient
record guaranteed present by `cond2`. -/
def runStep2 (env : Env) (pd : Patient) (s : AgentState) : AgentState :=
  let s1 := step2Await env s
  match env.synthesizeClinicalData pd with
  | .ok notes =>
      let s2 := updateAuditLogStatus "Synthesize Clinical Notes" .completed
        (some "Synthesis complete.") s1
      { s2 with synthesizedNotes := notes }
  | .error m =>
      let s2 := updateAuditLogStatus "Synthesize Clinical Notes" .error (some m) s1
      { s2 with status := .error, error := some m }

/-- The step name chosen by step 3: `'Regenerate Draft'` when editing,
`'Generate Draft Summary'` otherwise. -/
def step3Name (s : AgentState) : String :=
  if s.status = AgentStatus.editing then "Regenerate Draft" else "Generate Draft Summary"

/-- State of step 3 at its suspension point: the in-progress entry has been
appended and, in the editing branch, `status` was transiently set back to
`running`. -/
def step3Await (env : Env) (s : AgentState) : AgentState :=
  if s.status = AgentStatus.editing then
    { addAuditLog (step3Name s) "Applying requested edits and regenerating summary."
        .in_progress env.time s with
      status := .running }
  else
    addAuditLog (step3Name s) "Using Gemini to create draft summary."
      .in_progress env.time s

/-- Step 3 of `runWorkflow`: generate (or regenerate) the draft summary,
then append a fresh `'Human Review'` entry and wait for approval. -/
def runStep3 (env : Env) (s : AgentState) : AgentState :=
  let stepName := step3Name s
  let s1 := step3Await env s
  match env.generateDraftSummary s.synthesizedNotes s.patientData s.editRequest with
  | .ok draft =>
      let s2 := updateAuditLogStatus stepName .completed
        (some "Draft generated. Awaiting human review.") s1
      let s3 := addAuditLog "Human Review" "Waiting for clinician approval."
        .human_input env.time s2
      { s3 with draftSummary := draft, status := .awaiting_approval, editRequest := "" }
  | .error m =>
      let s2 := updateAuditLogStatus stepName .error (some m) s1
      { s2 with status := .error, error := some m }

/-- State of step 4 at its suspension point: after
`addAuditLog('Finalize Summary', ..., 'in_progress')`. -/
def step4Await (env : Env) (s : AgentState) : AgentState :=
  addAuditLog "Finalize Summary" "Finalizing the document." .in_progress env.time s

/-- Step 4 of `runWorkflow`: finalize the document, append the terminal
`'Workflow Complete'` entry, copy the draft into `finalSummary`. -/
def runStep4 (env : Env) (s : AgentState) : AgentState :=
  let s1 := step4Await env s
  let s2 := updateAuditLogStatus "Finalize Summary" .completed
    (some "Discharge summary is complete.") s1
  let s3 := addAuditLog "Workflow Complete" "Process finished successfully."
    .completed env.time s2
  { s3 with finalSummary := s3.draftSummary, status := .finished }

/-- One evaluation pass of the `runWorkflow` effect: the four preconditions
are checked in source order, at most one step executes (each guarded branch
of the source ends in `return`). -/
def evalPass (env : Env) (s : AgentState) : AgentState :=
  if cond1 s then runStep1 env s
  else if cond2 s then
    match s.patientData with
    | some pd => runStep2 env pd s
    | none => s     -- unreachable: cond2 requires patientData present
  else if cond3 s then runStep3 env s
  else if cond4 s then runStep4 env s
  else s

/-- Which step's precondition fires on `s` (first match wins), if any. -/
def stepIndex (s : AgentState) : Option Nat :=
  if cond1 s then some 1
  else if cond2 s then some 2
  else if cond3 s then some 3
  else if cond4 s then some 4
  else none

/-- The intermediate states observable while a pass from `s` is suspended at
an `await`: step 1 suspends twice (latency after each of its two appended
entries), steps 2–4 suspend once, after their in-progress entry is visible. -/
def passSnapshots (env : Env) (s : AgentState) : List AgentState :=
  if cond1 s then [step1Await1 env s, step1Await2 env s]
  else if cond2 s then [step2Await env s]
  else if cond3 s then [step3Await env s]
  else if cond4 s then [step4Await env s]
  else []

/-- States reachable through the orchestrator's entry points and evaluation
passes; each pass may see fresh collaborator behaviour, so `Env` is
existential per pass. -/
inductive Reachable : AgentState → Prop where
  | init : Reachable INITIAL_STATE
  | select (id : String) {s : AgentState} :
      Reachable s → Reachable (handlePatientSelect id s)
  | reset {s : AgentState} : Reachable s → Reachable (handleReset s)
  | generate {s : AgentState} : Reachable s → Reachable (handleGenerate s)
  | approve {s : AgentState} : Reachable s → Reachable (handleApprove s)
  | edits (t : String) {s : AgentState} :
      Reachable s → Reachable (handleRequestEdits t s)
  | pass (env : Env) {s : AgentState} :
      Reachable s → Reachable (evalPass env s)

/-- Number of audit entries currently `in_progress`. -/
def inProgressCount (l : List AuditLogEntry) : Nat :=
  l.countP (fun e => decide (e.status = AuditLogStatus.in_progress))

/-! ### Concrete collaborators used by witnesses and counterexamples -/

/-- A concrete patient record for witness runs. -/
def patientP1 : Patient where
  id := "P1"
  demographics := { name := "Jane Doe", dob := "1990-01-01", nhs_number := "943-476-5919" }
  admission_reason := "observation"
  clinical_notes := "stable"
  lab_results := []
  medication_changes := []

/-- A gateway that resolves only `"P1"`, with collaborators that always
succeed; used by witness runs. -/
def happyEnv : Env where
  getPatientData := fun i => if i = "P1" then some patientP1 else none
  synthesizeClinicalData := fun _ => .ok "synthesized notes"
  generateDraftSummary := fun _ _ _ => .ok "D2"
  time := "10:00:00"

/-! ### Helper lemmas -/

lemma append_ne_empty_left (a b : String) (h : a.length ≠ 0) : a ++ b ≠ "" := by
  intro hc
  have hl := congrArg String.length hc
  simp [String.length_append] at hl
  omega

/-- The audit log `l'` keeps every entry of `l` at its old position, with
the same step name and timestamp (only `status`/`details` may differ), and
may only have grown at the end. -/
def preservesEntries (l l' : List AuditLogEntry) : Prop :=
  l.length ≤ l'.length ∧
  ∀ i : Nat, ∀ e, l[i]? = some e →
    ∃ e', l'[i]? = some e' ∧ e'.step = e.step ∧ e'.timestamp = e.timestamp

lemma preservesEntries_refl (l : List AuditLogEntry) : preservesEntries l l := by
  refine ⟨le_refl _, fun i e he => ⟨e, he, rfl, rfl⟩⟩

lemma preservesEntries_trans {l₁ l₂ l₃ : List AuditLogEntry}
    (h12 : preservesEntries l₁ l₂) (h23 : preservesEntries l₂ l₃) :
    preservesEntries l₁ l₃ := by
  obtain ⟨hlen12, h12⟩ := h12
  obtain ⟨hlen23, h23⟩ := h23
  refine ⟨le_trans hlen12 hlen23, fun i e he => ?_⟩
  obtain ⟨e', he', hs', ht'⟩ := h12 i e he
  obtain ⟨e'', he'', hs'', ht''⟩ := h23 i e' he'
  exact ⟨e'', he'', hs''.trans hs', ht''.trans ht'⟩

lemma preservesEntries_append (l l₂ : List AuditLogEntry) :
    preservesEntries l (l ++ l₂) := by
  refine ⟨by simp, fun i e he => ⟨e, ?_, rfl, rfl⟩⟩
  have hi : i < l.length := by
    rcases List.getElem?_eq_some.mp he with ⟨h, _⟩
    exact h
  rw [List.getElem?_append, if_pos hi]
  exact he

lemma preservesEntries_map (l : List AuditLogEntry) (f : AuditLogEntry → AuditLogEntry)
    (hf : ∀ e, (f e).step = e.step ∧ (f e).timestamp = e.timestamp) :
    preservesEntries l (l.map f) := by
  refine ⟨by simp, fun i e he => ?_⟩
  refine ⟨f e, ?_, (hf e).1, (hf e).2⟩
  simp [List.getElem?_map, he]

lemma preservesEntries_updateLog (name : String) (st : AuditLogStatus)
    (d : Option String) (l : List AuditLogEntry) :
    preservesEntries l (updateLog name st d l) := by
  refine preservesEntries_map l _ (fun e => ?_)
  unfold updEntry
  split <;> exact ⟨rfl, rfl⟩

/-! ### C1 — update-by-name semantics of the audit log -/

/-- A state whose log holds two entries with the same step name. -/
def c1State : AgentState :=
  { INITIAL_STATE with
    auditLog := [⟨"Human Review", .human_input, "d1", "t1"⟩,
                 ⟨"Human Review", .human_input, "d2", "t2"⟩] }

/-- C1, counterexample: with two `"Human Review"` entries in the log,
`updateAuditLogStatus` also rewrites the second (later) match, so the claim
that only the first match changes is false. -/
theorem updateStatus_rewrites_later_match :
    (updateAuditLogStatus "Human Review" .completed (some "done") c1State).auditLog[1]? =
      some ⟨"Human Review", .completed, "done", "t2"⟩ ∧
    c1State.auditLog[1]? = some ⟨"Human Review", .human_input, "d2", "t2"⟩ := by
  constructor <;> rfl

/-- C1 (amended): `updateAuditLogStatus` rewrites EVERY entry whose step name
matches — each position of the log is mapped by the conditional rewrite, so
later matches change exactly like the first. -/
theorem updateStatus_rewrites_every_match (s : AgentState) (name : String)
    (st : AuditLogStatus) (d : Option String) (i : Nat) :
    (updateAuditLogStatus name st d s).auditLog[i]? =
      (s.auditLog[i]?).map (fun e =>
        if e.step = name then { e with status := st, details := jsOr d e.details }
        else e) := by
  simp only [updateAuditLogStatus, updateLog, List.getElem?_map]
  rfl

/-! ### C7 — reset returns the initial state -/

/-- C7: `handleReset` returns exactly `INITIAL_STATE` from every state
(reachable ones included), so the result is deep-equal to the initial empty
state; in particular at most `patientId` could differ (here nothing does). -/
theorem reset_returns_initial (s : AgentState) : handleReset s = INITIAL_STATE :=
  rfl

/-! ### C9 — approve and requestEdits are unguarded by status -/

/-- C9: `handleApprove` and `handleRequestEdits` never inspect `status`:
from every state whatsoever, approve sets `status = running` and completes
every `"Human Review"` entry with the approval note, and requestEdits sets
`status = editing`, stores the text, and completes every `"Human Review"`
entry with the edit note. -/
theorem human_actions_unguarded (s : AgentState) (t : String) :
    (handleApprove s).status = .running ∧
    (handleRequestEdits t s).status = .editing ∧
    (handleRequestEdits t s).editRequest = t ∧
    (∀ i : Nat, ∀ e, s.auditLog[i]? = some e → e.step = "Human Review" →
      (handleApprove s).auditLog[i]? =
        some { e with status := .completed,
                      details := "Clinician approved the draft summary." }) ∧
    (∀ i : Nat, ∀ e, s.auditLog[i]? = some e → e.step = "Human Review" →
      (handleRequestEdits t s).auditLog[i]? =
        some { e with status := .completed, details := editLogDetails t }) := by
  refine ⟨rfl, rfl, rfl, ?_, ?_⟩
  · intro i e he hstep
    simp [handleApprove, updateAuditLogStatus, updateLog, List.getElem?_map, he,
      updEntry, hstep, jsOr]
  · intro i e he hstep
    simp [handleRequestEdits, List.getElem?_map, he, hstep]

/-! ### C10 — generate is a no-op without a patient id -/

/-- C10: with `patientId` absent, `handleGenerate` returns the state
unchanged — no field is modified, no audit entry added, no status change. -/
theorem generate_noop_without_patient (s : AgentState) (h : s.patientId = none) :
    handleGenerate s = s := by
  simp [handleGenerate, truthyId, h]

/-- C10 witness at a concrete state. -/
theorem generate_noop_without_patient_witness :
    handleGenerate INITIAL_STATE = INITIAL_STATE :=
  generate_noop_without_patient INITIAL_STATE rfl

/-! ### C2 — how many entries are `in_progress` at an observable snapshot -/

lemma inProgressCount_append (l l₂ : List AuditLogEntry) :
    inProgressCount (l ++ l₂) = inProgressCount l + inProgressCount l₂ :=
  List.countP_append _ _ _

lemma inProgressCount_map_le (l : List AuditLogEntry)
    (f : AuditLogEntry → AuditLogEntry)
    (hf : ∀ e, f e = e ∨ (f e).status ≠ .in_progress) :
    inProgressCount (l.map f) ≤ inProgressCount l := by
  unfold inProgressCount
  rw [List.countP_map]
  refine List.countP_mono_left (fun a _ hpa => ?_)
  rcases hf a with h | h
  · simpa [Function.comp, h] using hpa
  · simp only [Function.comp, decide_eq_true_eq] at hpa
    exact absurd hpa h

lemma inProgressCount_updateLog_le (name : String) (st : AuditLogStatus)
    (d : Option String) (l : List AuditLogEntry) (hst : st ≠ .in_progress) :
    inProgressCount (updateLog name st d l) ≤ inProgressCount l := by
  refine inProgressCount_map_le l _ (fun e => ?_)
  unfold updEntry
  split
  · right; simpa using hst
  · left; rfl

lemma inProgressCount_update_append_le (name : String) (st : AuditLogStatus)
    (d : Option String) (det t : String) (l : List AuditLogEntry)
    (hst : st ≠ .in_progress) :
    inProgressCount (updateLog name st d (l ++ [⟨name, .in_progress, det, t⟩]))
      ≤ inProgressCount l := by
  have hsplit : updateLog name st d (l ++ [⟨name, .in_progress, det, t⟩]) =
      updateLog name st d l ++ [updEntry name st d ⟨name, .in_progress, det, t⟩] := by
    simp [updateLog]
  rw [hsplit, inProgressCount_append]
  have hz : inProgressCount [updEntry name st d ⟨name, .in_progress, det, t⟩] = 0 := by
    simp [inProgressCount, updEntry, hst]
  rw [hz]
  simpa using inProgressCount_updateLog_le name st d l hst

lemma step3Await_log (env : Env) (s : AgentState) :
    ∃ det, (step3Await env s).auditLog =
      s.auditLog ++ [⟨step3Name s, .in_progress, det, env.time⟩] := by
  simp only [step3Await]
  split
  · exact ⟨_, rfl⟩
  · exact ⟨_, rfl⟩

lemma runStep1_count_le (env : Env) (s : AgentState) (h1 : cond1 s = true) :
    inProgressCount (runStep1 env s).auditLog ≤ 1 := by
  have hlog : s.auditLog = [] := by
    simp only [cond1, Bool.and_eq_true, List.isEmpty_iff, decide_eq_true_eq] at h1
    exact h1.1.2
  simp only [runStep1]
  split
  · simp [step1Await2, step1Await1, addAuditLog, updateAuditLogStatus, updateLog,
      updEntry, hlog, inProgressCount, List.countP_cons, jsOr]
  · simp [step1Await2, step1Await1, addAuditLog, updateAuditLogStatus, updateLog,
      updEntry, hlog, inProgressCount, List.countP_cons, jsOr]

lemma runStep2_count_le (env : Env) (pd : Patient) (s : AgentState)
    (h : inProgressCount s.auditLog ≤ 1) :
    inProgressCount (runStep2 env pd s).auditLog ≤ 1 := by
  simp only [runStep2, step2Await, addAuditLog, updateAuditLogStatus]
  split
  · exact le_trans
      (inProgressCount_update_append_le _ .completed _ _ _ _ (by simp)) h
  · exact le_trans
      (inProgressCount_update_append_le _ .error _ _ _ _ (by simp)) h

lemma runStep3_count_le (env : Env) (s : AgentState)
    (h : inProgressCount s.auditLog ≤ 1) :
    inProgressCount (runStep3 env s).auditLog ≤ 1 := by
  obtain ⟨det, hlog3⟩ := step3Await_log env s
  simp only [runStep3, addAuditLog, updateAuditLogStatus]
  split
  · rw [hlog3, inProgressCount_append]
    have hu := inProgressCount_update_append_le (step3Name s) .completed
      (some "Draft generated. Awaiting human review.") det env.time s.auditLog (by simp)
    have hz : inProgressCount
        [⟨"Human Review", .human_input, "Waiting for clinician approval.", env.time⟩]
        = 0 := by simp [inProgressCount]
    omega
  · rw [hlog3]
    exact le_trans
      (inProgressCount_update_append_le _ .error _ _ _ _ (by simp)) h

lemma runStep4_count_le (env : Env) (s : AgentState)
    (h : inProgressCount s.auditLog ≤ 1) :
    inProgressCount (runStep4 env s).auditLog ≤ 1 := by
  simp only [runStep4, step4Await, addAuditLog, updateAuditLogStatus]
  rw [inProgressCount_append]
  have hu := inProgressCount_update_append_le "Finalize Summary" .completed
    (some "Discharge summary is complete.") "Finalizing the document." env.time
    s.auditLog (by simp)
  have hz : inProgressCount
      [⟨"Workflow Complete", .completed, "Process finished successfully.", env.time⟩]
      = 0 := by simp [inProgressCount]
  omega

lemma evalPass_count_le (env : Env) (s : AgentState)
    (h : inProgressCount s.auditLog ≤ 1) :
    inProgressCount (evalPass env s).auditLog ≤ 1 := by
  unfold evalPass
  split
  · exact runStep1_count_le env s (by assumption)
  · split
    · split
      · exact runStep2_count_le env _ s h
      · exact h
    · split
      · exact runStep3_count_le env s h
      · split
        · exact runStep4_count_le env s h
        · exact h

lemma reachable_count_le (s : AgentState) (h : Reachable s) :
    inProgressCount s.auditLog ≤ 1 := by
  induction h with
  | init => simp [INITIAL_STATE, inProgressCount]
  | select id h ih => simp [handlePatientSelect, INITIAL_STATE, inProgressCount]
  | reset h ih => simp [handleReset, INITIAL_STATE, inProgressCount]
  | generate h ih =>
      unfold handleGenerate
      split
      · simp [INITIAL_STATE, inProgressCount]
      · exact ih
  | approve h ih =>
      simp only [handleApprove, updateAuditLogStatus]
      exact le_trans (inProgressCount_updateLog_le _ .completed _ _ (by simp)) ih
  | edits t h ih =>
      simp only [handleRequestEdits]
      refine le_trans (inProgressCount_map_le _ _ (fun e => ?_)) ih
      split
      · right; simp
      · left; rfl
  | pass env h ih => exact evalPass_count_le env _ ih

lemma snapshot_count_le (env : Env) (s₀ s : AgentState) (h : Reachable s₀)
    (hm : s ∈ passSnapshots env s₀) : inProgressCount s.auditLog ≤ 2 := by
  have h0 := reachable_count_le s₀ h
  unfold passSnapshots at hm
  split at hm
  · -- step 1: the log is empty, its two snapshots hold one resp. two entries
    have hlog : s₀.auditLog = [] := by
      rename_i h1
      simp only [cond1, Bool.and_eq_true, List.isEmpty_iff, decide_eq_true_eq] at h1
      exact h1.1.2
    simp only [List.mem_cons, List.mem_singleton, List.not_mem_nil, or_false] at hm
    rcases hm with hm | hm
    · subst hm
      simp [step1Await1, addAuditLog, hlog, inProgressCount, List.countP_cons]
    · subst hm
      simp [step1Await2, step1Await1, addAuditLog, hlog, inProgressCount,
        List.countP_cons]
  · split at hm
    · rw [List.mem_singleton] at hm
      subst hm
      simp only [step2Await, addAuditLog]
      rw [inProgressCount_append]
      have hz : inProgressCount [⟨"Synthesize Clinical Notes", .in_progress,
          "Using Gemini to synthesize patient data.", env.time⟩] = 1 := by
        simp [inProgressCount]
      omega
    · split at hm
      · rw [List.mem_singleton] at hm
        subst hm
        obtain ⟨det, hlog3⟩ := step3Await_log env s₀
        have hla : (step3Await env s₀).auditLog =
            s₀.auditLog ++ [⟨step3Name s₀, .in_progress, det, env.time⟩] := hlog3
        rw [hla, inProgressCount_append]
        have hz : inProgressCount [⟨step3Name s₀, .in_progress, det, env.time⟩]
            = 1 := by simp [inProgressCount]
        omega
      · split at hm
        · rw [List.mem_singleton] at hm
          subst hm
          simp only [step4Await, addAuditLog]
          rw [inProgressCount_append]
          have hz : inProgressCount [⟨"Finalize Summary", .in_progress,
              "Finalizing the document.", env.time⟩] = 1 := by
            simp [inProgressCount]
          omega
        · cases hm

/-- The reachable state from which the C2 counterexample pass starts:
patient `"P1"` selected, generation triggered. -/
def c2Base : AgentState := handleGenerate (handlePatientSelect "P1" INITIAL_STATE)

/-- The snapshot of step 1 at its second suspension: both `"Start Workflow"`
and `"Retrieve Patient Data"` have been logged `in_progress`. -/
def c2Snap : AgentState := step1Await2 happyEnv c2Base

/-- C2, counterexample: at the snapshot taken while step 1 awaits the
retrieval latency, TWO audit entries are `in_progress` at once, so "at most
one entry is in_progress at every observed snapshot" is false. -/
theorem two_entries_in_progress_at_snapshot :
    Reachable c2Base ∧ c2Snap ∈ passSnapshots happyEnv c2Base ∧
    inProgressCount c2Snap.auditLog = 2 := by
  refine ⟨Reachable.generate (Reachable.select "P1" Reachable.init), ?_, ?_⟩
  · decide
  · rfl

/-- C2 (amended): in every reachable (quiescent) state at most ONE audit
entry is `in_progress` — including terminal error states — and in every
snapshot observable while a step is suspended at an `await`, at most TWO
are (step 1 holds both of its entries `in_progress` during retrieval). -/
theorem in_progress_bounded (s₀ : AgentState) (env : Env) (hs : Reachable s₀) :
    inProgressCount s₀.auditLog ≤ 1 ∧
    ∀ s ∈ passSnapshots env s₀, inProgressCount s.auditLog ≤ 2 :=
  ⟨reachable_count_le s₀ hs, fun s hm => snapshot_count_le env s₀ s hs hm⟩

/-- C2 witness: the bound instantiated on the concrete running state. -/
theorem in_progress_bounded_witness :
    inProgressCount c2Base.auditLog ≤ 1 ∧
    ∀ s ∈ passSnapshots happyEnv c2Base, inProgressCount s.auditLog ≤ 2 :=
  in_progress_bounded c2Base happyEnv
    (Reachable.generate (Reachable.select "P1" Reachable.init))

/-! ### C6 — idempotence of the evaluation pass -/

lemma cond_of_stepIndex (s : AgentState) :
    (stepIndex s = some 1 → cond1 s = true) ∧
    (stepIndex s = some 2 → cond2 s = true) ∧
    (stepIndex s = some 3 → cond3 s = true) ∧
    (stepIndex s = some 4 → cond4 s = true) := by
  unfold stepIndex
  split
  · rename_i h
    exact ⟨fun _ => h, fun hc => by simp at hc, fun hc => by simp at hc,
      fun hc => by simp at hc⟩
  split
  · rename_i h
    exact ⟨fun hc => by simp at hc, fun _ => h, fun hc => by simp at hc,
      fun hc => by simp at hc⟩
  split
  · rename_i h
    exact ⟨fun hc => by simp at hc, fun hc => by simp at hc, fun _ => h,
      fun hc => by simp at hc⟩
  split
  · rename_i h
    exact ⟨fun hc => by simp at hc, fun hc => by simp at hc,
      fun hc => by simp at hc, fun _ => h⟩
  · exact ⟨fun hc => by simp at hc, fun hc => by simp at hc,
      fun hc => by simp at hc, fun hc => by simp at hc⟩

lemma cond1_eq_false_of_log (s : AgentState) (h : s.auditLog ≠ []) :
    cond1 s = false := by
  unfold cond1
  have hE : s.auditLog.isEmpty = false := by
    cases hE : s.auditLog.isEmpty
    · rfl
    · exact absurd (List.isEmpty_iff.mp hE) h
  simp [hE]

lemma cond2_eq_false_of_status (s : AgentState) (h : s.status ≠ .running) :
    cond2 s = false := by
  unfold cond2
  simp [h]

lemma cond2_eq_false_of_notes (s : AgentState) (h : s.synthesizedNotes ≠ "") :
    cond2 s = false := by
  unfold cond2
  simp [h]

lemma cond3_eq_false_of_status (s : AgentState) (h : s.status ≠ .running)
    (h' : s.status ≠ .editing) : cond3 s = false := by
  unfold cond3
  simp [h, h']

lemma cond4_eq_false_of_status (s : AgentState) (h : s.status ≠ .running) :
    cond4 s = false := by
  unfold cond4
  simp [h]

lemma runStep1_log_ne_nil (env : Env) (s : AgentState) :
    (runStep1 env s).auditLog ≠ [] := by
  simp only [runStep1]
  split <;>
    simp [updateAuditLogStatus, updateLog, step1Await2, step1Await1, addAuditLog]

lemma runStep3_status (env : Env) (s : AgentState) :
    (runStep3 env s).status = .awaiting_approval ∨
    (runStep3 env s).status = .error := by
  simp only [runStep3]
  split
  · left; rfl
  · right; rfl

/-- An environment whose synthesis collaborator returns the EMPTY string. -/
def c6Env : Env := { happyEnv with synthesizeClinicalData := fun _ => .ok "" }

/-- A state about to run step 2: running, patient record present, no notes. -/
def c6Base : AgentState :=
  { INITIAL_STATE with status := .running, patientData := some patientP1 }

/-- C6, counterexample: when the synthesis collaborator returns empty text,
step 2 completes (its entry is `completed`) yet its own precondition still
holds on the resulting state, and the immediately following pass — with no
intervening external change — re-runs the completed step and appends a new
`"Synthesize Clinical Notes"` entry. -/
theorem pass_reruns_completed_step :
    stepIndex c6Base = some 2 ∧
    (evalPass c6Env c6Base).auditLog =
      [⟨"Synthesize Clinical Notes", .completed, "Synthesis complete.",
        "10:00:00"⟩] ∧
    stepIndex (evalPass c6Env c6Base) = some 2 ∧
    (evalPass c6Env (evalPass c6Env c6Base)).auditLog.length = 2 := by
  refine ⟨rfl, rfl, rfl, rfl⟩

/-- C6 (amended): provided the synthesis collaborator never returns empty
text, the evaluation pass is idempotent: a state where no precondition holds
is left exactly unchanged (no new audit entries, no status change), and
whenever a step fires, its mutation — success or failure — falsifies that
step's own precondition, so the immediately following pass cannot re-run it. -/
theorem pass_idempotent_nonempty_synthesis (env : Env) (s : AgentState)
    (hsyn : ∀ p r, env.synthesizeClinicalData p = Except.ok r → r ≠ "") :
    (stepIndex s = none → evalPass env s = s) ∧
    (∀ i, stepIndex s = some i → stepIndex (evalPass env s) ≠ some i) := by
  constructor
  · intro hnone
    have h1 : cond1 s = false := by
      cases hc : cond1 s
      · rfl
      · simp [stepIndex, hc] at hnone
    have h2 : cond2 s = false := by
      cases hc : cond2 s
      · rfl
      · simp [stepIndex, h1, hc] at hnone
    have h3 : cond3 s = false := by
      cases hc : cond3 s
      · rfl
      · simp [stepIndex, h1, h2, hc] at hnone
    have h4 : cond4 s = false := by
      cases hc : cond4 s
      · rfl
      · simp [stepIndex, h1, h2, h3, hc] at hnone
    simp [evalPass, h1, h2, h3, h4]
  · intro i hi hcontra
    by_cases h1 : cond1 s = true
    · have hi1 : i = 1 := by
        simp [stepIndex, h1] at hi
        omega
      subst hi1
      have hpass : evalPass env s = runStep1 env s := by
        simp [evalPass, h1]
      rw [hpass] at hcontra
      have hc1' := (cond_of_stepIndex _).1 hcontra
      rw [cond1_eq_false_of_log _ (runStep1_log_ne_nil env s)] at hc1'
      cases hc1'
    · have h1' : cond1 s = false := by
        cases hc : cond1 s
        · rfl
        · exact absurd hc h1
      by_cases h2 : cond2 s = true
      · have hi2 : i = 2 := by
          simp [stepIndex, h1', h2] at hi
          omega
        subst hi2
        have h2e := h2
        simp only [cond2, Bool.and_eq_true, decide_eq_true_eq,
          Option.isSome_iff_exists] at h2e
        obtain ⟨⟨hrun, pd, hpd⟩, hnotes⟩ := h2e
        have hpass : evalPass env s = runStep2 env pd s := by
          simp [evalPass, h1', h2, hpd]
        rw [hpass] at hcontra
        have hc2' := (cond_of_stepIndex _).2.1 hcontra
        rcases hres : env.synthesizeClinicalData pd with m | notes
        · have hst : (runStep2 env pd s).status = .error := by
            simp [runStep2, hres]
          rw [cond2_eq_false_of_status _ (by rw [hst]; intro hc; cases hc)]
            at hc2'
          cases hc2'
        · have hsn : (runStep2 env pd s).synthesizedNotes = notes := by
            simp [runStep2, hres]
          have hne := hsyn pd notes hres
          rw [cond2_eq_false_of_notes _ (by rw [hsn]; exact hne)] at hc2'
          cases hc2'
      · have h2' : cond2 s = false := by
          cases hc : cond2 s
          · rfl
          · exact absurd hc h2
        by_cases h3 : cond3 s = true
        · have hi3 : i = 3 := by
            simp [stepIndex, h1', h2', h3] at hi
            omega
          subst hi3
          have hpass : evalPass env s = runStep3 env s := by
            simp [evalPass, h1', h2', h3]
          rw [hpass] at hcontra
          have hc3' := (cond_of_stepIndex _).2.2.1 hcontra
          rcases runStep3_status env s with hst | hst <;>
          · rw [cond3_eq_false_of_status _ (by rw [hst]; intro hc; cases hc)
              (by rw [hst]; intro hc; cases hc)] at hc3'
            cases hc3'
        · have h3' : cond3 s = false := by
            cases hc : cond3 s
            · rfl
            · exact absurd hc h3
          by_cases h4 : cond4 s = true
          · have hi4 : i = 4 := by
              simp [stepIndex, h1', h2', h3', h4] at hi
              omega
            subst hi4
            have hpass : evalPass env s = runStep4 env s := by
              simp [evalPass, h1', h2', h3', h4]
            rw [hpass] at hcontra
            have hc4' := (cond_of_stepIndex _).2.2.2 hcontra
            have hst : (runStep4 env s).status = .finished := by
              simp [runStep4]
            rw [cond4_eq_false_of_status _ (by rw [hst]; intro hc; cases hc)]
              at hc4'
            cases hc4'
          · have h4' : cond4 s = false := by
              cases hc : cond4 s
              · rfl
              · exact absurd hc h4
            simp [stepIndex, h1', h2', h3', h4'] at hi

/-- C6 witness: the amended idempotence at the concrete running state and
the all-succeeding environment. -/
theorem pass_idempotent_nonempty_synthesis_witness :
    (stepIndex c2Base = none → evalPass happyEnv c2Base = c2Base) ∧
    (∀ i, stepIndex c2Base = some i →
      stepIndex (evalPass happyEnv c2Base) ≠ some i) :=
  pass_idempotent_nonempty_synthesis happyEnv c2Base
    (fun _ r h => by
      simp only [happyEnv, Except.ok.injEq] at h
      subst h
      decide)

/-! ### C3 — the edit cycle regenerates the draft and re-enters review -/

lemma lit_append_append_ne_empty (a m b : String) (ha : a.length ≠ 0) :
    a ++ m ++ b ≠ "" := by
  apply append_ne_empty_left
  rw [String.length_append]
  omega

/-- C3: from any state in `awaiting_approval` with draft `"D1"`, requesting
edits and letting the machine run with a draft collaborator returning `"D2"`
completes every prior `"Human Review"` entry with details containing the
request text, appends a completed `"Regenerate Draft"` entry and then a fresh
`"Human Review"` entry with status `human_input`, sets `draftSummary = "D2"`,
`status = awaiting_approval`, and clears `editRequest`. -/
theorem edit_cycle (env : Env) (s : AgentState) (t : String)
    (hst : s.status = AgentStatus.awaiting_approval)
    (hds : s.draftSummary = "D1")
    (hdraft : ∀ n pd er, env.generateDraftSummary n pd er = Except.ok "D2") :
    ((evalPass env (handleRequestEdits t s)).draftSummary = "D2") ∧
    ((evalPass env (handleRequestEdits t s)).status = .awaiting_approval) ∧
    ((evalPass env (handleRequestEdits t s)).editRequest = "") ∧
    ((evalPass env (handleRequestEdits t s)).auditLog.length
       = s.auditLog.length + 2) ∧
    (∀ i : Nat, ∀ e, s.auditLog[i]? = some e → e.step = "Human Review" →
      (evalPass env (handleRequestEdits t s)).auditLog[i]? =
        some { e with status := .completed,
                      details := "Clinician requested edits: \"" ++ t ++ "\"" }) ∧
    ((evalPass env (handleRequestEdits t s)).auditLog[s.auditLog.length]? =
      some ⟨"Regenerate Draft", .completed,
            "Draft generated. Awaiting human review.", env.time⟩) ∧
    ((evalPass env (handleRequestEdits t s)).auditLog[s.auditLog.length + 1]? =
      some ⟨"Human Review", .human_input, "Waiting for clinician approval.",
            env.time⟩) := by
  have h1 : cond1 (handleRequestEdits t s) = false := by
    simp [cond1, handleRequestEdits]
  have h2 : cond2 (handleRequestEdits t s) = false := by
    simp [cond2, handleRequestEdits]
  have h3 : cond3 (handleRequestEdits t s) = true := by
    simp [cond3, handleRequestEdits]
  have hfinal : evalPass env (handleRequestEdits t s) =
      { patientId := s.patientId
        patientData := s.patientData
        synthesizedNotes := s.synthesizedNotes
        draftSummary := "D2"
        finalSummary := s.finalSummary
        auditLog := updateLog "Regenerate Draft" .completed
            (some "Draft generated. Awaiting human review.")
            (s.auditLog.map (fun log =>
              if log.step = "Human Review" then
                { log with status := .completed, details := editLogDetails t }
              else log)
             ++ [⟨"Regenerate Draft", .in_progress,
                  "Applying requested edits and regenerating summary.",
                  env.time⟩])
          ++ [⟨"Human Review", .human_input, "Waiting for clinician approval.",
               env.time⟩]
        status := .awaiting_approval
        error := s.error
        editRequest := "" } := by
    have hstep3 : evalPass env (handleRequestEdits t s)
        = runStep3 env (handleRequestEdits t s) := by
      simp [evalPass, h1, h2, h3]
    rw [hstep3]
    simp [runStep3, step3Name, step3Await, handleRequestEdits, addAuditLog,
      updateAuditLogStatus, hdraft]
  refine ⟨by rw [hfinal], by rw [hfinal], by rw [hfinal], ?_, ?_, ?_, ?_⟩
  · rw [hfinal]
    simp [updateLog]
  · intro i e he hstep
    have hi : i < s.auditLog.length := (List.getElem?_eq_some.mp he).1
    rw [hfinal]
    rw [List.getElem?_append, if_pos (by simp [updateLog]; omega)]
    simp only [updateLog]
    rw [List.getElem?_map, List.getElem?_append, if_pos (by simp; omega),
      List.getElem?_map, he]
    simp [updEntry, hstep, editLogDetails]
  · rw [hfinal]
    rw [List.getElem?_append, if_pos (by simp [updateLog]; try omega)]
    simp only [updateLog]
    rw [List.getElem?_map, List.getElem?_append,
      if_neg (by simp)]
    simp [updEntry, jsOr]
  · rw [hfinal]
    rw [List.getElem?_append, if_neg (by simp [updateLog])]
    simp [updateLog]

/-- A concrete state awaiting approval of draft `"D1"`. -/
def c3State : AgentState :=
  { INITIAL_STATE with
    patientData := some patientP1
    synthesizedNotes := "synthesized notes"
    draftSummary := "D1"
    status := .awaiting_approval
    auditLog := [⟨"Human Review", .human_input,
                  "Waiting for clinician approval.", "t0"⟩] }

/-- C3 witness: the edit cycle run from the concrete reviewing state. -/
theorem edit_cycle_witness :
    ((evalPass happyEnv (handleRequestEdits "add allergy info" c3State)).draftSummary
      = "D2") ∧
    ((evalPass happyEnv (handleRequestEdits "add allergy info" c3State)).status
      = .awaiting_approval) ∧
    ((evalPass happyEnv (handleRequestEdits "add allergy info" c3State)).editRequest
      = "") ∧
    ((evalPass happyEnv (handleRequestEdits "add allergy info" c3State)).auditLog.length
      = c3State.auditLog.length + 2) ∧
    (∀ i : Nat, ∀ e, c3State.auditLog[i]? = some e → e.step = "Human Review" →
      (evalPass happyEnv (handleRequestEdits "add allergy info" c3State)).auditLog[i]? =
        some { e with status := .completed,
                      details := "Clinician requested edits: \""
                        ++ "add allergy info" ++ "\"" }) ∧
    ((evalPass happyEnv
        (handleRequestEdits "add allergy info" c3State)).auditLog[c3State.auditLog.length]? =
      some ⟨"Regenerate Draft", .completed,
            "Draft generated. Awaiting human review.", happyEnv.time⟩) ∧
    ((evalPass happyEnv
        (handleRequestEdits "add allergy info" c3State)).auditLog[c3State.auditLog.length + 1]? =
      some ⟨"Human Review", .human_input, "Waiting for clinician approval.",
            happyEnv.time⟩) :=
  edit_cycle happyEnv c3State "add allergy info" rfl rfl (fun _ _ _ => rfl)

/-! ### C4 — the happy path finishes the workflow -/

/-- C4: when the patient id resolves, synthesis and drafting return
non-empty text, and the clinician approves, the run ends `finished` with
`finalSummary` equal to `draftSummary` and the audit log ending in a
completed `"Workflow Complete"` entry. -/
theorem happy_path_finishes (env : Env) (pid : String) (p : Patient)
    (notes draft : String)
    (hpid : pid ≠ "")
    (hget : env.getPatientData pid = some p)
    (hsyn : env.synthesizeClinicalData p = Except.ok notes)
    (hnotes : notes ≠ "")
    (hdraft : env.generateDraftSummary notes (some p) "" = Except.ok draft)
    (hdne : draft ≠ "") :
    ((evalPass env (handleApprove (evalPass env (evalPass env (evalPass env
        (handleGenerate (handlePatientSelect pid INITIAL_STATE))))))).status
      = .finished) ∧
    ((evalPass env (handleApprove (evalPass env (evalPass env (evalPass env
        (handleGenerate (handlePatientSelect pid INITIAL_STATE))))))).finalSummary
      = (evalPass env (handleApprove (evalPass env (evalPass env (evalPass env
        (handleGenerate (handlePatientSelect pid INITIAL_STATE))))))).draftSummary) ∧
    ((evalPass env (handleApprove (evalPass env (evalPass env (evalPass env
        (handleGenerate (handlePatientSelect pid INITIAL_STATE))))))).auditLog.getLast?
      = some ⟨"Workflow Complete", .completed, "Process finished successfully.",
              env.time⟩) := by
  have hs0 : handleGenerate (handlePatientSelect pid INITIAL_STATE) =
      { patientId := some pid, patientData := none, synthesizedNotes := "",
        draftSummary := "", finalSummary := "", auditLog := [],
        status := .running, error := none, editRequest := "" } := by
    simp [handleGenerate, handlePatientSelect, truthyId, hpid, INITIAL_STATE]
  have hRPDne : "Successfully fetched data for " ++ p.demographics.name ++ "."
      ≠ "" :=
    lit_append_append_ne_empty _ _ _ (by decide)
  have hs1 : evalPass env
      { patientId := some pid, patientData := none, synthesizedNotes := "",
        draftSummary := "", finalSummary := "", auditLog := [],
        status := .running, error := none, editRequest := "" } =
      { patientId := some pid, patientData := some p, synthesizedNotes := "",
        draftSummary := "", finalSummary := "",
        auditLog := [⟨"Start Workflow", .completed,
            "Initiating summary generation for patient: " ++ pid, env.time⟩,
          ⟨"Retrieve Patient Data", .completed,
            "Successfully fetched data for " ++ p.demographics.name ++ ".",
            env.time⟩],
        status := .running, error := none, editRequest := "" } := by
    have hc1 : cond1
        { patientId := some pid, patientData := none, synthesizedNotes := "",
          draftSummary := "", finalSummary := "", auditLog := [],
          status := AgentStatus.running, error := none, editRequest := "" }
        = true := by
      simp [cond1, truthyId, hpid]
    simp [evalPass, hc1, runStep1, step1Await2, step1Await1, addAuditLog,
      updateAuditLogStatus, updateLog, updEntry, hget, jsOr, hRPDne]
  have hs2 : evalPass env
      { patientId := some pid, patientData := some p, synthesizedNotes := "",
        draftSummary := "", finalSummary := "",
        auditLog := [⟨"Start Workflow", .completed,
            "Initiating summary generation for patient: " ++ pid, env.time⟩,
          ⟨"Retrieve Patient Data", .completed,
            "Successfully fetched data for " ++ p.demographics.name ++ ".",
            env.time⟩],
        status := .running, error := none, editRequest := "" } =
      { patientId := some pid, patientData := some p,
        synthesizedNotes := notes, draftSummary := "", finalSummary := "",
        auditLog := [⟨"Start Workflow", .completed,
            "Initiating summary generation for patient: " ++ pid, env.time⟩,
          ⟨"Retrieve Patient Data", .completed,
            "Successfully fetched data for " ++ p.demographics.name ++ ".",
            env.time⟩,
          ⟨"Synthesize Clinical Notes", .completed, "Synthesis complete.",
            env.time⟩],
        status := .running, error := none, editRequest := "" } := by
    simp [evalPass, cond1, cond2, runStep2, step2Await, addAuditLog,
      updateAuditLogStatus, updateLog, updEntry, hsyn, jsOr]
  have hs3 : evalPass env
      { patientId := some pid, patientData := some p,
        synthesizedNotes := notes, draftSummary := "", finalSummary := "",
        auditLog := [⟨"Start Workflow", .completed,
            "Initiating summary generation for patient: " ++ pid, env.time⟩,
          ⟨"Retrieve Patient Data", .completed,
            "Successfully fetched data for " ++ p.demographics.name ++ ".",
            env.time⟩,
          ⟨"Synthesize Clinical Notes", .completed, "Synthesis complete.",
            env.time⟩],
        status := .running, error := none, editRequest := "" } =
      { patientId := some pid, patientData := some p,
        synthesizedNotes := notes, draftSummary := draft, finalSummary := "",
        auditLog := [⟨"Start Workflow", .completed,
            "Initiating summary generation for patient: " ++ pid, env.time⟩,
          ⟨"Retrieve Patient Data", .completed,
            "Successfully fetched data for " ++ p.demographics.name ++ ".",
            env.time⟩,
          ⟨"Synthesize Clinical Notes", .completed, "Synthesis complete.",
            env.time⟩,
          ⟨"Generate Draft Summary", .completed,
            "Draft generated. Awaiting human review.", env.time⟩,
          ⟨"Human Review", .human_input, "Waiting for clinician approval.",
            env.time⟩],
        status := .awaiting_approval, error := none, editRequest := "" } := by
    simp [evalPass, cond1, cond2, cond3, hnotes, runStep3, step3Name,
      step3Await, addAuditLog, updateAuditLogStatus, updateLog, updEntry,
      hdraft, jsOr]
  have hs4 : handleApprove
      { patientId := some pid, patientData := some p,
        synthesizedNotes := notes, draftSummary := draft, finalSummary := "",
        auditLog := [⟨"Start Workflow", .completed,
            "Initiating summary generation for patient: " ++ pid, env.time⟩,
          ⟨"Retrieve Patient Data", .completed,
            "Successfully fetched data for " ++ p.demographics.name ++ ".",
            env.time⟩,
          ⟨"Synthesize Clinical Notes", .completed, "Synthesis complete.",
            env.time⟩,
          ⟨"Generate Draft Summary", .completed,
            "Draft generated. Awaiting human review.", env.time⟩,
          ⟨"Human Review", .human_input, "Waiting for clinician approval.",
            env.time⟩],
        status := .awaiting_approval, error := none, editRequest := "" } =
      { patientId := some pid, patientData := some p,
        synthesizedNotes := notes, draftSummary := draft, finalSummary := "",
        auditLog := [⟨"Start Workflow", .completed,
            "Initiating summary generation for patient: " ++ pid, env.time⟩,
          ⟨"Retrieve Patient Data", .completed,
            "Successfully fetched data for " ++ p.demographics.name ++ ".",
            env.time⟩,
          ⟨"Synthesize Clinical Notes", .completed, "Synthesis complete.",
            env.time⟩,
          ⟨"Generate Draft Summary", .completed,
            "Draft generated. Awaiting human review.", env.time⟩,
          ⟨"Human Review", .completed, "Clinician approved the draft summary.",
            env.time⟩],
        status := .running, error := none, editRequest := "" } := by
    simp [handleApprove, updateAuditLogStatus, updateLog, updEntry, jsOr]
  have hs5 : evalPass env
      { patientId := some pid, patientData := some p,
        synthesizedNotes := notes, draftSummary := draft, finalSummary := "",
        auditLog := [⟨"Start Workflow", .completed,
            "Initiating summary generation for patient: " ++ pid, env.time⟩,
          ⟨"Retrieve Patient Data", .completed,
            "Successfully fetched data for " ++ p.demographics.name ++ ".",
            env.time⟩,
          ⟨"Synthesize Clinical Notes", .completed, "Synthesis complete.",
            env.time⟩,
          ⟨"Generate Draft Summary", .completed,
            "Draft generated. Awaiting human review.", env.time⟩,
          ⟨"Human Review", .completed, "Clinician approved the draft summary.",
            env.time⟩],
        status := .running, error := none, editRequest := "" } =
      { patientId := some pid, patientData := some p,
        synthesizedNotes := notes, draftSummary := draft,
        finalSummary := draft,
        auditLog := [⟨"Start Workflow", .completed,
            "Initiating summary generation for patient: " ++ pid, env.time⟩,
          ⟨"Retrieve Patient Data", .completed,
            "Successfully fetched data for " ++ p.demographics.name ++ ".",
            env.time⟩,
          ⟨"Synthesize Clinical Notes", .completed, "Synthesis complete.",
            env.time⟩,
          ⟨"Generate Draft Summary", .completed,
            "Draft generated. Awaiting human review.", env.time⟩,
          ⟨"Human Review", .completed, "Clinician approved the draft summary.",
            env.time⟩,
          ⟨"Finalize Summary", .completed, "Discharge summary is complete.",
            env.time⟩,
          ⟨"Workflow Complete", .completed, "Process finished successfully.",
            env.time⟩],
        status := .finished, error := none, editRequest := "" } := by
    simp [evalPass, cond1, cond2, cond3, cond4, hnotes, hdne, runStep4,
      step4Await, addAuditLog, updateAuditLogStatus, updateLog, updEntry,
      jsOr]
  rw [hs0, hs1, hs2, hs3, hs4, hs5]
  exact ⟨rfl, rfl, rfl⟩

/-- C4 witness: a concrete happy-path run for patient `"P1"`. -/
theorem happy_path_finishes_witness :
    ((evalPass happyEnv (handleApprove (evalPass happyEnv (evalPass happyEnv
        (evalPass happyEnv (handleGenerate
          (handlePatientSelect "P1" INITIAL_STATE))))))).status
      = .finished) ∧
    ((evalPass happyEnv (handleApprove (evalPass happyEnv (evalPass happyEnv
        (evalPass happyEnv (handleGenerate
          (handlePatientSelect "P1" INITIAL_STATE))))))).finalSummary
      = (evalPass happyEnv (handleApprove (evalPass happyEnv (evalPass happyEnv
        (evalPass happyEnv (handleGenerate
          (handlePatientSelect "P1" INITIAL_STATE))))))).draftSummary) ∧
    ((evalPass happyEnv (handleApprove (evalPass happyEnv (evalPass happyEnv
        (evalPass happyEnv (handleGenerate
          (handlePatientSelect "P1" INITIAL_STATE))))))).auditLog.getLast?
      = some ⟨"Workflow Complete", .completed, "Process finished successfully.",
              happyEnv.time⟩) :=
  happy_path_finishes happyEnv "P1" patientP1 "synthesized notes" "D2"
    (by decide) rfl rfl (by decide) rfl (by decide)

/-! ### C8 — the audit log is append-only within a run -/

lemma runStep1_preservesEntries (env : Env) (s : AgentState) :
    preservesEntries s.auditLog (runStep1 env s).auditLog := by
  simp only [runStep1]
  split
  · exact preservesEntries_trans (preservesEntries_append _ _)
      (preservesEntries_trans (preservesEntries_append _ _)
        (preservesEntries_trans (preservesEntries_updateLog _ _ _ _)
          (preservesEntries_updateLog _ _ _ _)))
  · exact preservesEntries_trans (preservesEntries_append _ _)
      (preservesEntries_trans (preservesEntries_append _ _)
        (preservesEntries_updateLog _ _ _ _))

lemma runStep2_preservesEntries (env : Env) (pd : Patient) (s : AgentState) :
    preservesEntries s.auditLog (runStep2 env pd s).auditLog := by
  simp only [runStep2]
  split
  · exact preservesEntries_trans (preservesEntries_append _ _)
      (preservesEntries_updateLog _ _ _ _)
  · exact preservesEntries_trans (preservesEntries_append _ _)
      (preservesEntries_updateLog _ _ _ _)

lemma step3Await_preservesEntries (env : Env) (s : AgentState) :
    preservesEntries s.auditLog (step3Await env s).auditLog := by
  simp only [step3Await]
  split
  · exact preservesEntries_append _ _
  · exact preservesEntries_append _ _

lemma runStep3_preservesEntries (env : Env) (s : AgentState) :
    preservesEntries s.auditLog (runStep3 env s).auditLog := by
  simp only [runStep3]
  split
  · exact preservesEntries_trans (step3Await_preservesEntries env s)
      (preservesEntries_trans (preservesEntries_updateLog _ _ _ _)
        (preservesEntries_append _ _))
  · exact preservesEntries_trans (step3Await_preservesEntries env s)
      (preservesEntries_updateLog _ _ _ _)

lemma runStep4_preservesEntries (env : Env) (s : AgentState) :
    preservesEntries s.auditLog (runStep4 env s).auditLog := by
  simp only [runStep4]
  exact preservesEntries_trans (preservesEntries_append _ _)
    (preservesEntries_trans (preservesEntries_updateLog _ _ _ _)
      (preservesEntries_append _ _))

lemma evalPass_preservesEntries (env : Env) (s : AgentState) :
    preservesEntries s.auditLog (evalPass env s).auditLog := by
  simp only [evalPass]
  split
  · exact runStep1_preservesEntries env s
  · split
    · split
      · exact runStep2_preservesEntries env _ s
      · exact preservesEntries_refl _
    · split
      · exact runStep3_preservesEntries env s
      · split
        · exact runStep4_preservesEntries env s
        · exact preservesEntries_refl _

/-- C8: every orchestrator operation within a run — a raw append, a
status update, approve, requestEdits, and a whole evaluation pass — keeps
every existing audit entry at its position with its step name and timestamp
intact (only `status`/`details` may be rewritten), and never removes or
reorders entries. -/
theorem audit_log_append_only (s : AgentState) (env : Env)
    (stepName det ts t name : String) (ast st : AuditLogStatus)
    (d : Option String) :
    preservesEntries s.auditLog (addAuditLog stepName det ast ts s).auditLog ∧
    preservesEntries s.auditLog (updateAuditLogStatus name st d s).auditLog ∧
    preservesEntries s.auditLog (handleApprove s).auditLog ∧
    preservesEntries s.auditLog (handleRequestEdits t s).auditLog ∧
    preservesEntries s.auditLog (evalPass env s).auditLog := by
  refine ⟨preservesEntries_append _ _, preservesEntries_updateLog _ _ _ _,
    preservesEntries_updateLog _ _ _ _, ?_, evalPass_preservesEntries env s⟩
  refine preservesEntries_map _ _ (fun e => ?_)
  split <;> exact ⟨rfl, rfl⟩

/-! ### C5 — unresolved patient id fails the run -/

/-- C5: when the gateway does not resolve the (truthy) patient id, the pass
ends with `status = error`, the error message `"Patient ID <id> not found."`,
and the `"Retrieve Patient Data"` entry marked `error` with that message. -/
theorem missing_patient_errors (env : Env) (s : AgentState) (pid : String)
    (hst : s.status = .running) (hlog : s.auditLog = [])
    (hpid : s.patientId = some pid) (hne : pid ≠ "")
    (hmiss : env.getPatientData pid = none) :
    (evalPass env s).status = .error ∧
    (evalPass env s).error = some ("Patient ID " ++ pid ++ " not found.") ∧
    (evalPass env s).auditLog[1]? =
      some ⟨"Retrieve Patient Data", .error,
            "Patient ID " ++ pid ++ " not found.", env.time⟩ := by
  have hc1 : cond1 s = true := by
    simp [cond1, hst, hlog, hpid, truthyId, hne]
  have hmsg : ("Patient ID " ++ pid ++ " not found.") ≠ "" := by
    intro hc
    have hl := congrArg String.length hc
    simp only [String.length_append] at hl
    have h1 : "Patient ID ".length = 11 := rfl
    have h2 : " not found.".length = 11 := rfl
    have h0 : "".length = 0 := rfl
    omega
  simp [evalPass, hc1, runStep1, step1Await2, step1Await1, addAuditLog,
    updateAuditLogStatus, updateLog, updEntry, hpid, hmiss, hlog, jsOr, hmsg]

/-- C5 witness: a concrete run whose patient id `"X"` the gateway misses. -/
theorem missing_patient_errors_witness :
    ((evalPass { happyEnv with getPatientData := fun _ => none }
        { INITIAL_STATE with status := .running, patientId := some "X" }).status
        = .error) ∧
    ((evalPass { happyEnv with getPatientData := fun _ => none }
        { INITIAL_STATE with status := .running, patientId := some "X" }).error
        = some ("Patient ID " ++ "X" ++ " not found.")) ∧
    ((evalPass { happyEnv with getPatientData := fun _ => none }
        { INITIAL_STATE with status := .running, patientId := some "X" }).auditLog[1]?
        = some ⟨"Retrieve Patient Data", .error,
                "Patient ID " ++ "X" ++ " not found.", "10:00:00"⟩) :=
  missing_patient_errors { happyEnv with getPatientData := fun _ => none }
    { INITIAL_STATE with status := .running, patientId := some "X" } "X"
    rfl rfl rfl (by decide) rfl

end HealthScribe
